import Mathlib

/-!
Shallow embedding of the Gulf Consulting PPE detection backend
(Express server in `server.js`, plus the client-side validation and
form-building helpers in `lib/api.ts`).  Pure JavaScript computations are
translated to Lean functions; the fallible file-system and network calls
are modelled with `Except`/`Option` oracles, with the `try`/`catch`
structure of the handlers reproduced explicitly.  JavaScript numbers are
modelled as `ℚ` (`Math.round` results as `ℤ`); statuses keep the exact
string literals used by the code.
-/

set_option autoImplicit false

namespace PPE

/-- JavaScript `Math.round`: nearest integer, halves toward positive
infinity (`Math.round(0.5) = 1`, `Math.round(-0.5) = 0`). -/
def jsRound (q : ℚ) : ℤ := ⌊q + 1 / 2⌋

/-- Status classification used when drawing equipment boxes
(`processPersonImage`, server lines 121–127): start from
`"Not Detected"`, switch to `"Detected"` when
`confidence >= confidenceThreshold`, otherwise to `"Indeterminate"` when
`confidence > 0`.  `confidence` here is the already-rounded value from
line 120. -/
def classifyStatus (confidence threshold : ℚ) : String :=
  if threshold ≤ confidence then "Detected"
  else if 0 < confidence then "Indeterminate"
  else "Not Detected"

/-- Normalized bounding box returned by the detection service:
`Left`, `Top`, `Width`, `Height` relative to the image dimensions. -/
structure BBox where
  left : ℚ
  top : ℚ
  width : ℚ
  height : ℚ
  deriving DecidableEq, Repr

/-- One equipment detection (`EquipmentDetections[i]`).  `etype` stands for
the JSON field `Type` (a reserved word in Lean); the bounding box is
optional, matching the `if (equipment.BoundingBox)` guard in the code. -/
structure EquipmentDetection where
  etype : String
  confidence : ℚ
  boundingBox : Option BBox
  deriving DecidableEq, Repr

/-- One body part of a detected person (`Person.BodyParts[i]`). -/
structure BodyPart where
  name : String
  confidence : ℚ
  equipmentDetections : List EquipmentDetection
  deriving DecidableEq, Repr

/-- One detected person as returned by the detection service. -/
structure Person where
  id : ℕ
  confidence : ℚ
  boundingBox : BBox
  bodyParts : List BodyPart
  deriving DecidableEq, Repr

/-- Server lines 237–239: the first body part one of whose equipment
detections has the requested type. -/
def findPart (bodyParts : List BodyPart) (t : String) : Option BodyPart :=
  bodyParts.find? (fun p => p.equipmentDetections.any (fun e => e.etype == t))

/-- Server lines 240–241: `part && part.EquipmentDetections.find(eq => eq.Type === type)`. -/
def findDetection (bodyParts : List BodyPart) (t : String) : Option EquipmentDetection :=
  (findPart bodyParts t).bind (fun p => p.equipmentDetections.find? (fun e => e.etype == t))

/-- A per-item result pair, e.g. `hardHat: { status, confidence }`. -/
structure ItemStatus where
  status : String
  confidence : ℤ
  deriving DecidableEq, Repr

/-- Server lines 236–251 (`getStatus` inside the detect handler): returns
`Detected` with the detection's rounded confidence when a matching
detection was found, else `Not Detected` with the found part's rounded
confidence, or 0 when no part was found.  The middle branch is kept
exactly as written even though it is unreachable (see
`getStatus_claim_cex`). -/
def getStatus (bodyParts : List BodyPart) (t : String) : ItemStatus :=
  match findDetection bodyParts t with
  | some d => ⟨"Detected", jsRound d.confidence⟩
  | none =>
    match findPart bodyParts t with
    | some p => ⟨"Not Detected", jsRound p.confidence⟩
    | none => ⟨"Not Detected", 0⟩

/-- Crop rectangle for a person (server lines 97–100):
`Math.floor` of each normalized coordinate scaled by the image size. -/
def cropRect (bb : BBox) (w h : ℚ) : ℤ × ℤ × ℤ × ℤ :=
  (⌊bb.left * w⌋, ⌊bb.top * h⌋, ⌊bb.width * w⌋, ⌊bb.height * h⌋)

/-- Equipment rectangle used for drawing (server lines 132–135): direct
scaling of every component, no flooring anywhere. -/
def renderRect (bb : BBox) (w h : ℚ) : ℚ × ℚ × ℚ × ℚ :=
  (bb.left * w, bb.top * h, bb.width * w, bb.height * h)

/-- Modelled from the claim's words (C5), for comparison with the code: a
single absolute rectangle whose origin coordinates are floored and whose
width and height are scaled without flooring. -/
def claimAbsoluteRect (bb : BBox) (w h : ℚ) : ℚ × ℚ × ℚ × ℚ :=
  ((⌊bb.left * w⌋ : ℚ), (⌊bb.top * h⌋ : ℚ), bb.width * w, bb.height * h)

/-- `serverUrl` constant from server line 16 (default value). -/
def serverUrl : String := "https://detection.gulfconsulting.com.au"

/-- Placeholder URL substituted when per-person processing fails
(server line 184). -/
def placeholderUrl (personId : ℕ) : String :=
  serverUrl ++ "/placeholder.svg?height=120&width=120&text=Person+" ++ toString personId

/-- Generated file name for a person's processed image (server line 172). -/
def processedFileName (personId : ℕ) (uuid : String) : String :=
  "person_" ++ toString personId ++ "_" ++ uuid ++ ".png"

/-- Directory for generated images (server line 22, relative part). -/
def processedImagesDir : String := "processed-images"

/-- Validity condition of the `sharp(...).extract` call (server lines
161–167): sharp raises "extract area exceeds image bounds" unless the
region is non-degenerate and inside the image. -/
def extractOk (r : ℤ × ℤ × ℤ × ℤ) (w h : ℤ) : Bool :=
  0 ≤ r.1 && 0 ≤ r.2.1 && 0 < r.2.2.1 && 0 < r.2.2.2 &&
    r.1 + r.2.2.1 ≤ w && r.2.1 + r.2.2.2 ≤ h

/-- Oracle for the fallible image I/O inside `processPersonImage`:
whether `loadImage` and `fs.writeFileSync` succeed, and the random UUID
used in the generated file name. -/
structure RenderEnv where
  loadOk : Bool
  writeOk : Bool
  uuid : String
  deriving DecidableEq, Repr

/-- Server lines 86–186 (`processPersonImage`): annotate the full image,
crop the person region, save the crop and return its URL, tracking the
generated file; the whole body is wrapped in `try`/`catch`, the `catch`
returning a placeholder URL (and tracking nothing).  The canvas drawing
does not affect the returned value and is elided; the result is the URL
together with the list of generated files appended to `generatedFiles`. -/
def processPersonImage (env : RenderEnv) (person : Person) (w h : ℤ) :
    String × List String :=
  let c := cropRect person.boundingBox (w : ℚ) (h : ℚ)
  if env.loadOk && extractOk c w h && env.writeOk then
    (serverUrl ++ "/processed-images/" ++ processedFileName person.id env.uuid,
      [processedImagesDir ++ "/" ++ processedFileName person.id env.uuid])
  else
    (placeholderUrl person.id, [])

/-- The assembled per-person record returned by the detect endpoint
(server lines 262–280). -/
structure PersonResult where
  personId : ℕ
  confidence : ℤ
  image : String
  boundingBox : BBox
  hardHat : ItemStatus
  faceMask : ItemStatus
  handProtectionL : ItemStatus
  handProtectionR : ItemStatus
  safetyVest : ItemStatus
  boots : ItemStatus
  deriving DecidableEq, Repr

/-- The record literal built for input index `idx` (server lines
262–280); `imageUrl` is the URL produced by `processPersonImage`. -/
def mkPersonResult (idx : ℕ) (person : Person) (imageUrl : String) : PersonResult :=
  { personId := idx + 1
    confidence := jsRound person.confidence
    image := imageUrl
    boundingBox := person.boundingBox
    hardHat := getStatus person.bodyParts "HEAD_COVER"
    faceMask := getStatus person.bodyParts "FACE_COVER"
    handProtectionL := getStatus person.bodyParts "HAND_COVER"
    handProtectionR := getStatus person.bodyParts "HAND_COVER"
    safetyVest := ⟨"Not Supported", 0⟩
    boots := ⟨"Not Supported", 0⟩ }

/-- Index-aware map underlying `(data.Persons || []).map((person, idx) => ...)`
combined through `Promise.all`, which resolves to the results in input
position order regardless of the order in which the per-person promises
settle; `urlOf` abstracts the URL each person's `processPersonImage`
call resolves to. -/
def assembleFrom (urlOf : Person → String) : ℕ → List Person → List PersonResult
  | _, [] => []
  | idx, person :: rest =>
    mkPersonResult idx person (urlOf person) :: assembleFrom urlOf (idx + 1) rest

/-- The full results list of the detect handler (server lines 232–282). -/
def assembleResults (persons : List Person) (urlOf : Person → String) : List PersonResult :=
  assembleFrom urlOf 0 persons

/-- File-system state: the stored files as (path, mtime in ms) pairs. -/
abbrev FsState : Type := List (String × ℕ)

/-- `fs.existsSync`. -/
def existsSync (fs : FsState) (p : String) : Bool :=
  List.any fs (fun f => f.1 == p)

/-- `fs.unlinkSync`: removes the file, raising ENOENT when it is absent. -/
def unlinkSync (fs : FsState) (p : String) : Except String FsState :=
  if existsSync fs p then
    Except.ok (List.filter (fun f => !(f.1 == p)) fs)
  else Except.error "ENOENT"

/-- `fs.statSync`, reduced to the modification time the sweep reads. -/
def statSync (fs : FsState) (p : String) : Except String ℕ :=
  match List.find? (fun f => f.1 == p) fs with
  | some f => Except.ok f.2
  | none => Except.error "ENOENT"

/-- One iteration of `cleanupFiles` (server lines 49–60): inside
`try`/`catch`, unlink the path only if it exists; a raised error is
logged and swallowed, so the function itself never throws. -/
def cleanupOne (fs : FsState) (p : String) : FsState :=
  if existsSync fs p then
    match unlinkSync fs p with
    | Except.ok fs2 => fs2
    | Except.error _ => fs
  else fs

/-- `cleanupFiles(filePaths)` (server lines 49–60): the per-request
deferred cleanup trigger, applied to each tracked path in turn. -/
def cleanupFiles (fs : FsState) (filePaths : List String) : FsState :=
  List.foldl cleanupOne fs filePaths

/-- One file of the periodic sweep (server lines 358–370): inside
`try`/`catch`, stat the file and unlink it when its mtime is more than
120000 ms old; a raised error (in particular ENOENT for a vanished file)
is logged and swallowed. -/
def sweepOne (now : ℕ) (fs : FsState) (p : String) : FsState :=
  match statSync fs p with
  | Except.error _ => fs
  | Except.ok mtime =>
    if 120000 < now - mtime then
      match unlinkSync fs p with
      | Except.ok fs2 => fs2
      | Except.error _ => fs
    else fs

/-- The periodic sweep body (server lines 352–375) over a directory
listing taken at some earlier moment. -/
def periodicSweep (now : ℕ) (fs : FsState) (listing : List String) : FsState :=
  List.foldl (sweepOne now) fs listing

/-- The `||` coalescing applied to a JavaScript number, where both NaN
(modelled as `none`) and 0 are falsy and select the default. -/
def jsNumOr (x : Option ℚ) (d : ℚ) : ℚ :=
  match x with
  | none => d
  | some v => if v = 0 then d else v

/-- Reading a field of the parsed multipart body (`req.body.<key>`);
`none` models the `undefined` of a missing field. -/
def lookupField (body : List (String × String)) (k : String) : Option String :=
  (List.find? (fun f => f.1 == k) body).map (fun f => f.2)

/-- Server line 213:
`const confidenceThreshold = parseFloat(req.body.confidenceThreshold) || 80;`.
`parseFloat` is the JavaScript builtin, abstracted as a function from the
optional field value to an optional rational (`none` = NaN). -/
def confidenceThresholdOf (parseFloat : Option String → Option ℚ)
    (body : List (String × String)) : ℚ :=
  jsNumOr (parseFloat (lookupField body "confidenceThreshold")) 80

/-- The form field name the client actually sends (`createFormData`,
`lib/api.ts` line 602). -/
def clientThresholdField : String := "confidence_threshold"

/-- A tiny concrete stand-in for the `parseFloat` builtin, used only to
instantiate witnesses: parses the two literals appearing there and
returns NaN (`none`) on everything else, including `undefined`. -/
def parseFloatW : Option String → Option ℚ
  | some "90" => some 90
  | some "0" => some 0
  | _ => none

/-- The `supported_formats` list advertised by `GET /api/config`
(server line 326). -/
def supported_formats : List String := ["image/jpeg", "image/jpg", "image/png"]

/-- A file as the browser presents it to the client-side validator. -/
structure ClientFile where
  type : String
  size : ℕ
  deriving DecidableEq, Repr

/-- Return shape of the client-side validator. -/
structure ValidationResult where
  valid : Bool
  error : Option String
  deriving DecidableEq, Repr

/-- `validateImageFile` (`lib/api.ts` lines 649–670): the only MIME/size
validation in the repository, performed in the browser before any
request is sent. -/
def validateImageFile (file : ClientFile) : ValidationResult :=
  let allowedTypes : List String := ["image/jpeg", "image/jpg", "image/png"]
  let maxSize : ℕ := 10 * 1024 * 1024
  if file.type ∉ allowedTypes then
    ⟨false, some "Invalid file type. Please upload a JPEG or PNG image."⟩
  else if maxSize < file.size then
    ⟨false, some "File too large. Please upload an image smaller than 10MB."⟩
  else ⟨true, none⟩

/-- The uploaded file as multer hands it to the detect handler. -/
structure ReqFile where
  path : String
  mimetype : String
  deriving DecidableEq, Repr

/-- A `POST /api/detect` request after multipart parsing. -/
structure DetectRequest where
  file : Option ReqFile
  body : List (String × String)

/-- `sharp(imagePath).metadata()` result (the fields the handler uses). -/
structure MetadataResult where
  width : ℤ
  height : ℤ
  format : String
  deriving DecidableEq, Repr

/-- Oracles for the fallible steps of the detect handler:
`fs.readFileSync`, `sharp().metadata()` (`none` = the bytes are not a
parseable image, the promise rejects) and the Rekognition call (`none` =
the external service throws). -/
structure DetectEnv where
  readFileOk : Bool
  metadata : Option MetadataResult
  rekognition : Option (List Person)

/-- The JSON response of the detect handler, reduced to the fields the
claims are about. -/
structure JsonResponse where
  status : ℕ
  success : Bool
  error : Option String
  deriving DecidableEq, Repr

/-- Observable outcome of one run of the detect handler: the response,
whether `fs.unlinkSync(imagePath)` ran on the uploaded source file before
responding, whether the external Rekognition dependency was called, and
the assembled results (on success). -/
structure HandlerOutcome where
  response : JsonResponse
  sourceFileDeleted : Bool
  rekognitionCalled : Bool
  results : Option (List PersonResult)
  deriving DecidableEq, Repr

/-- A concrete URL assignment for instantiating the handler in closed
statements: every person resolves to their placeholder URL. -/
def defaultUrlOf : Person → String := fun p => placeholderUrl p.id

/-- The `POST /api/detect` handler (server lines 209–321), as a function
of the failure oracles.  Control flow mirrors the nested `try`/`catch`:
reading `req.file.path` on a missing file, a `readFileSync` failure, or a
`metadata()` rejection throw before the inner `try`, landing in the outer
`catch` (lines 313–320), which responds 500 without unlinking; a
Rekognition failure lands in the inner `catch` (lines 304–312), which
unlinks then responds 500; on success the handler unlinks, then responds
200 with the assembled results.  `Promise.all` over the per-person work
cannot reject because `processPersonImage` catches its own errors.
Nothing in the handler reads `req.file.mimetype`. -/
def detectHandler (env : DetectEnv) (urlOf : Person → String)
    (req : DetectRequest) : HandlerOutcome :=
  match req.file with
  | none =>
    ⟨⟨500, false, some "Error processing image"⟩, false, false, none⟩
  | some _ =>
    if env.readFileOk = false then
      ⟨⟨500, false, some "Error processing image"⟩, false, false, none⟩
    else
      match env.metadata with
      | none =>
        ⟨⟨500, false, some "Error processing image"⟩, false, false, none⟩
      | some _ =>
        match env.rekognition with
        | none =>
          ⟨⟨500, false, some "Failed to process image with AWS Rekognition"⟩,
            true, true, none⟩
        | some persons =>
          ⟨⟨200, true, none⟩, true, true, some (assembleResults persons urlOf)⟩

end PPE

namespace PPE

theorem classifyStatus_eq_detected {c t : ℚ} :
    classifyStatus c t = "Detected" ↔ t ≤ c := by
  unfold classifyStatus
  split_ifs with h1 h2
  · exact iff_of_true rfl h1
  · exact iff_of_false (by decide) h1
  · exact iff_of_false (by decide) h1

theorem classifyStatus_eq_indeterminate {c t : ℚ} :
    classifyStatus c t = "Indeterminate" ↔ 0 < c ∧ c < t := by
  unfold classifyStatus
  split_ifs with h1 h2
  · exact iff_of_false (by decide) (fun hc => absurd hc.2 (not_lt.mpr h1))
  · exact iff_of_true rfl ⟨h2, not_le.mp h1⟩
  · exact iff_of_false (by decide) (fun hc => absurd hc.1 h2)

theorem classifyStatus_eq_notDetected {c t : ℚ} :
    classifyStatus c t = "Not Detected" ↔ c ≤ 0 ∧ c < t := by
  unfold classifyStatus
  split_ifs with h1 h2
  · exact iff_of_false (by decide) (fun hc => absurd hc.2 (not_lt.mpr h1))
  · exact iff_of_false (by decide) (fun hc => absurd h2 (not_lt.mpr hc.1))
  · exact iff_of_true rfl ⟨le_of_not_lt h2, not_le.mp h1⟩

/-- C1 counterexample: at confidence 0 and threshold −5 (reachable, since the
threshold is `parseFloat` of a client-supplied field) the code classifies
`"Detected"`, although the claim requires `NotDetected` whenever the
confidence is ≤ 0.  The same happens at threshold 0. -/
theorem classifyStatus_claim_cex :
    classifyStatus 0 (-5) = "Detected" ∧ (0 : ℚ) ≤ 0 ∧
      classifyStatus 0 (-5) ≠ "Not Detected" ∧
      classifyStatus 0 0 = "Detected" := by
  refine ⟨?_, le_refl 0, ?_, ?_⟩
  · rw [classifyStatus_eq_detected]; norm_num
  · rw [Ne, classifyStatus_eq_notDetected]; norm_num
  · rw [classifyStatus_eq_detected]

/-- C1 (amended): for all confidences `c` and thresholds `t`, the
classification is `"Detected"` iff `c ≥ t`, `"Indeterminate"` iff
`0 < c < t`, and `"Not Detected"` iff `c ≤ 0` and `c < t` (when `c ≥ t`
the code reports `"Detected"` even for `c ≤ 0`); the boundary table
c=0,t=80 → NotDetected, c=79,t=80 → Indeterminate, c=80,t=80 → Detected,
c=100,t=0 → Detected holds as claimed. -/
theorem classifyStatus_spec (c t : ℚ) :
    (classifyStatus c t = "Detected" ↔ t ≤ c) ∧
    (classifyStatus c t = "Indeterminate" ↔ 0 < c ∧ c < t) ∧
    (classifyStatus c t = "Not Detected" ↔ c ≤ 0 ∧ c < t) ∧
    classifyStatus 0 80 = "Not Detected" ∧
    classifyStatus 79 80 = "Indeterminate" ∧
    classifyStatus 80 80 = "Detected" ∧
    classifyStatus 100 0 = "Detected" := by
  refine ⟨classifyStatus_eq_detected, classifyStatus_eq_indeterminate,
    classifyStatus_eq_notDetected, ?_, ?_, ?_, ?_⟩
  · rw [classifyStatus_eq_notDetected]; norm_num
  · rw [classifyStatus_eq_indeterminate]; norm_num
  · rw [classifyStatus_eq_detected]
  · rw [classifyStatus_eq_detected]; norm_num

theorem findDetection_isSome_of_findPart {bodyParts : List BodyPart} {t : String}
    {p : BodyPart} (h : findPart bodyParts t = some p) :
    (findDetection bodyParts t).isSome = true := by
  have h' : List.find? (fun p => p.equipmentDetections.any (fun e => e.etype == t))
      bodyParts = some p := h
  have hp := List.find?_some h'
  simp only [List.any_eq_true] at hp
  obtain ⟨e, he, hee⟩ := hp
  have : (p.equipmentDetections.find? (fun e => e.etype == t)).isSome = true := by
    rw [List.find?_isSome]
    exact ⟨e, he, hee⟩
  simp only [findDetection, h, Option.bind_some]
  exact this

theorem findPart_eq_none_of_findDetection {bodyParts : List BodyPart} {t : String}
    (h : findDetection bodyParts t = none) : findPart bodyParts t = none := by
  cases hp : findPart bodyParts t with
  | none => rfl
  | some p =>
    have := findDetection_isSome_of_findPart hp
    rw [h] at this
    simp at this

/-- C2 counterexample: a person with a single `HEAD` body part of
confidence 95 that carries no equipment detections.  The claim requires
`getStatus` to report `Not Detected` with the body part's own confidence
(95); the code reports confidence 0, because the body-part lookup only
ever finds parts that already contain a matching detection. -/
theorem getStatus_claim_cex :
    getStatus [⟨"HEAD", 95, []⟩] "HEAD_COVER" = ⟨"Not Detected", 0⟩ ∧
      jsRound 95 = 95 ∧ (0 : ℤ) ≠ 95 := by
  refine ⟨rfl, ?_, by decide⟩
  norm_num [jsRound]

/-- C2 (amended): a matching detection is found exactly when a body part
is found (so the branch "body part found but no matching detection, report
the part's own confidence" can never execute); when a detection is found
the result is `Detected` with that detection's rounded confidence, and
otherwise the result is always `Not Detected` with confidence 0. -/
theorem getStatus_spec (bodyParts : List BodyPart) (t : String) :
    ((findDetection bodyParts t).isSome = (findPart bodyParts t).isSome) ∧
    (∀ d, findDetection bodyParts t = some d →
      getStatus bodyParts t = ⟨"Detected", jsRound d.confidence⟩) ∧
    (findDetection bodyParts t = none →
      getStatus bodyParts t = ⟨"Not Detected", 0⟩) := by
  refine ⟨?_, ?_, ?_⟩
  · cases hp : findPart bodyParts t with
    | none => simp [findDetection, hp]
    | some p =>
      rw [findDetection_isSome_of_findPart hp]
      rfl
  · intro d hd
    simp [getStatus, hd]
  · intro hd
    simp [getStatus, hd, findPart_eq_none_of_findDetection hd]

/-- C2 witness: a person with a `HEAD` body part carrying a `HEAD_COVER`
detection of confidence 90 yields `Detected` with confidence 90. -/
theorem getStatus_spec_witness :
    getStatus [⟨"HEAD", 99, [⟨"HEAD_COVER", 90, none⟩]⟩] "HEAD_COVER" =
      ⟨"Detected", 90⟩ := by
  have h := (getStatus_spec [⟨"HEAD", 99, [⟨"HEAD_COVER", 90, none⟩]⟩]
    "HEAD_COVER").2.1 ⟨"HEAD_COVER", 90, none⟩ rfl
  rw [h]
  have h90 : jsRound 90 = 90 := by norm_num [jsRound]
  rw [show (⟨"HEAD_COVER", 90, none⟩ : EquipmentDetection).confidence = 90 from rfl, h90]

/-- C5 counterexample: for the normalized box (0.5, 0.5, 0.5, 0.5) in a
3×3 image, the rectangle demanded by the claim (floored origin, direct
width/height) is (1, 1, 1.5, 1.5); the crop rectangle the code computes
is (1, 1, 1, 1) — its width and height are floored too — and the
rendering rectangle is (1.5, 1.5, 1.5, 1.5) — its origin is not floored.
Neither computation in the code produces the claimed rectangle. -/
theorem absoluteRect_claim_cex :
    claimAbsoluteRect ⟨1 / 2, 1 / 2, 1 / 2, 1 / 2⟩ 3 3 = (1, 1, 3 / 2, 3 / 2) ∧
    cropRect ⟨1 / 2, 1 / 2, 1 / 2, 1 / 2⟩ 3 3 = (1, 1, 1, 1) ∧
    renderRect ⟨1 / 2, 1 / 2, 1 / 2, 1 / 2⟩ 3 3 = (3 / 2, 3 / 2, 3 / 2, 3 / 2) ∧
    ((3 / 2 : ℚ) ≠ ((1 : ℤ) : ℚ)) := by
  refine ⟨?_, ?_, ?_, by norm_num⟩ <;>
    simp only [claimAbsoluteRect, cropRect, renderRect, Prod.mk.injEq] <;> norm_num

/-- C5 (amended): the crop rectangle floors all four scaled components
(each component is the floor of the corresponding directly-scaled value),
while the rectangle used for rendering equipment boxes applies direct
scaling to all four components with no flooring at all; the crop
rectangle is exactly the componentwise floor of the rendering
rectangle. -/
theorem cropRect_renderRect_spec (bb : BBox) (w h : ℚ) :
    (((cropRect bb w h).1 : ℚ) ≤ bb.left * w ∧ bb.left * w < (cropRect bb w h).1 + 1) ∧
    (((cropRect bb w h).2.2.1 : ℚ) ≤ bb.width * w ∧
      bb.width * w < (cropRect bb w h).2.2.1 + 1) ∧
    renderRect bb w h = (bb.left * w, bb.top * h, bb.width * w, bb.height * h) ∧
    cropRect bb w h =
      (⌊(renderRect bb w h).1⌋, ⌊(renderRect bb w h).2.1⌋,
        ⌊(renderRect bb w h).2.2.1⌋, ⌊(renderRect bb w h).2.2.2⌋) :=
  ⟨⟨Int.floor_le _, Int.lt_floor_add_one _⟩,
    ⟨Int.floor_le _, Int.lt_floor_add_one _⟩, rfl, rfl⟩

theorem assembleFrom_length (urlOf : Person → String) :
    ∀ (idx : ℕ) (persons : List Person),
      (assembleFrom urlOf idx persons).length = persons.length := by
  intro idx persons
  induction persons generalizing idx with
  | nil => rfl
  | cons p rest ih => simp [assembleFrom, ih]

/-- C8: whenever the fallible part of per-person processing fails — the
crop region is degenerate or out of bounds, the image cannot be loaded,
or the crop cannot be written — `processPersonImage` returns the
placeholder URL for that person (and tracks no generated file) instead of
raising; and the assembled results list always has one entry per input
person, whatever URL each person ended up with. -/
theorem processPersonImage_spec (env : RenderEnv) (person : Person) (w h : ℤ)
    (hfail : (env.loadOk &&
      extractOk (cropRect person.boundingBox (w : ℚ) (h : ℚ)) w h &&
      env.writeOk) = false) :
    processPersonImage env person w h = (placeholderUrl person.id, []) ∧
    ∀ (persons : List Person) (urlOf : Person → String),
      (assembleResults persons urlOf).length = persons.length := by
  constructor
  · simp only [processPersonImage, hfail]
    rfl
  · intro persons urlOf
    exact assembleFrom_length urlOf 0 persons

/-- C8 witness: a person whose bounding box has normalized width 0 gives
a degenerate crop region, so the placeholder URL is substituted. -/
theorem processPersonImage_spec_witness :
    processPersonImage ⟨true, true, "u0"⟩ ⟨7, 99, ⟨0, 0, 0, 1 / 2⟩, []⟩ 100 100 =
      (placeholderUrl 7, []) := by
  have hc : cropRect (⟨0, 0, 0, 1 / 2⟩ : BBox) ((100 : ℤ) : ℚ) ((100 : ℤ) : ℚ) =
      (0, 0, 0, 50) := by
    simp only [cropRect, Prod.mk.injEq]
    norm_num
  exact (processPersonImage_spec ⟨true, true, "u0"⟩ ⟨7, 99, ⟨0, 0, 0, 1 / 2⟩, []⟩ 100 100
    (by rw [hc]; decide)).1

theorem assembleFrom_getElem? (urlOf : Person → String) :
    ∀ (persons : List Person) (i k : ℕ),
      (assembleFrom urlOf i persons)[k]? =
        (persons[k]?).map (fun p => mkPersonResult (i + k) p (urlOf p)) := by
  intro persons
  induction persons with
  | nil => intro i k; simp [assembleFrom]
  | cons p rest ih =>
    intro i k
    cases k with
    | zero => simp [assembleFrom]
    | succ k =>
      have harith : i + 1 + k = i + (k + 1) := by omega
      simp only [assembleFrom, List.getElem?_cons_succ, ih (i + 1) k, harith]

/-- C6: the assembled results list has exactly one entry per input
person; its entry at index `k` is the record built from input person `k`
(with `personId = k + 1`), so the output order is the input order.  The
JavaScript `Promise.all` resolves to the mapped results in input position
order no matter in which order the per-person promises settle, which the
positional `map` here models. -/
theorem assembleResults_spec (persons : List Person) (urlOf : Person → String) (k : ℕ) :
    (assembleResults persons urlOf).length = persons.length ∧
    (assembleResults persons urlOf)[k]? =
      (persons[k]?).map (fun p => mkPersonResult k p (urlOf p)) ∧
    ∀ (p : Person) (u : String), (mkPersonResult k p u).personId = k + 1 := by
  refine ⟨assembleFrom_length urlOf 0 persons, ?_, fun p u => rfl⟩
  have h := assembleFrom_getElem? urlOf persons 0 k
  simpa using h

/-- C7: in every assembled record the left- and right-hand protection
fields are the same value — both are `getStatus` of the person's body
parts at `HAND_COVER`, status and confidence alike. -/
theorem handProtection_left_eq_right (idx : ℕ) (person : Person) (url : String) :
    (mkPersonResult idx person url).handProtectionL =
      (mkPersonResult idx person url).handProtectionR := rfl

theorem find?_none_of_existsSync_false {fs : FsState} {p : String}
    (h : existsSync fs p = false) :
    List.find? (fun f => f.1 == p) fs = none := by
  rw [List.find?_eq_none]
  intro x hx hbeq
  have hex : existsSync fs p = true := by
    simp only [existsSync, List.any_eq_true]
    exact ⟨x, hx, hbeq⟩
  rw [h] at hex
  exact Bool.false_ne_true hex

/-- C9: invoked on a path whose file no longer exists, both deletion
triggers leave the file-system state unchanged and raise nothing: the
bare `unlinkSync` would raise ENOENT, but `cleanupFiles` guards it with
`existsSync` (and catches), and the periodic sweep's `statSync` raises
first inside its per-file `try`/`catch`, which logs and continues. -/
theorem cleanup_idempotent_absent (fs : FsState) (p : String) (now : ℕ)
    (h : existsSync fs p = false) :
    unlinkSync fs p = Except.error "ENOENT" ∧
    cleanupOne fs p = fs ∧
    cleanupFiles fs [p] = fs ∧
    sweepOne now fs p = fs ∧
    periodicSweep now fs [p] = fs := by
  have hfind := find?_none_of_existsSync_false h
  refine ⟨?_, ?_, ?_, ?_, ?_⟩
  · simp [unlinkSync, h]
  · simp [cleanupOne, h]
  · simp [cleanupFiles, cleanupOne, h]
  · simp [sweepOne, statSync, hfind]
  · simp [periodicSweep, sweepOne, statSync, hfind]

/-- C9 witness: deleting an absent path leaves a one-file store intact
under both triggers. -/
theorem cleanup_idempotent_absent_witness :
    cleanupFiles [("processed-images/a.png", 0)] ["processed-images/b.png"] =
      [("processed-images/a.png", 0)] ∧
    periodicSweep 1000000 [("processed-images/a.png", 0)] ["processed-images/b.png"] =
      [("processed-images/a.png", 0)] :=
  ⟨(cleanup_idempotent_absent [("processed-images/a.png", 0)]
      "processed-images/b.png" 1000000 (by decide)).2.2.1,
    (cleanup_idempotent_absent [("processed-images/a.png", 0)]
      "processed-images/b.png" 1000000 (by decide)).2.2.2.2⟩

/-- C10: the threshold actually used is `parseFloat` of the body's
`confidenceThreshold` field when that yields a non-zero number, and 80
otherwise — in particular when the field is absent, non-numeric, exactly
0, or spelled `confidence_threshold` (the name the client sends); and no
run can ever use threshold 0. -/
theorem confidenceThresholdOf_spec (parseFloat : Option String → Option ℚ)
    (body : List (String × String)) (hNaN : parseFloat none = none) :
    (∀ s x, lookupField body "confidenceThreshold" = some s →
      parseFloat (some s) = some x → x ≠ 0 →
      confidenceThresholdOf parseFloat body = x) ∧
    (∀ s, lookupField body "confidenceThreshold" = some s →
      parseFloat (some s) = some 0 → confidenceThresholdOf parseFloat body = 80) ∧
    (∀ s, lookupField body "confidenceThreshold" = some s →
      parseFloat (some s) = none → confidenceThresholdOf parseFloat body = 80) ∧
    (lookupField body "confidenceThreshold" = none →
      confidenceThresholdOf parseFloat body = 80) ∧
    confidenceThresholdOf parseFloat body ≠ 0 ∧
    (∀ v, lookupField [(clientThresholdField, v)] "confidenceThreshold" = none) := by
  refine ⟨?_, ?_, ?_, ?_, ?_, ?_⟩
  · intro s x hs hx hx0
    simp [confidenceThresholdOf, hs, hx, jsNumOr, hx0]
  · intro s hs hx
    simp [confidenceThresholdOf, hs, hx, jsNumOr]
  · intro s hs hx
    simp [confidenceThresholdOf, hs, hx, jsNumOr]
  · intro hl
    simp [confidenceThresholdOf, hl, hNaN, jsNumOr]
  · unfold confidenceThresholdOf jsNumOr
    cases hx : parseFloat (lookupField body "confidenceThreshold") with
    | none =>
      show (80 : ℚ) ≠ 0
      norm_num
    | some v =>
      show (if v = 0 then (80 : ℚ) else v) ≠ 0
      split_ifs with hv
      · norm_num
      · exact hv
  · intro v
    simp [lookupField, clientThresholdField]

/-- C10 witness: a request built the way the client builds it — the
value 90 under the field name `confidence_threshold` — is processed with
the default threshold 80. -/
theorem confidenceThresholdOf_spec_witness :
    confidenceThresholdOf parseFloatW [("confidence_threshold", "90")] = 80 :=
  (confidenceThresholdOf_spec parseFloatW [("confidence_threshold", "90")]
    rfl).2.2.2.1 (by decide)

/-- C3: when `sharp(imagePath).metadata()` rejects (e.g. the uploaded
bytes are not a parseable image), control reaches the outer `catch`,
which responds 500 without ever unlinking the uploaded source file —
although the file exists on disk, since multer stored it before the
handler ran.  The success exit and the Rekognition-failure exit do
unlink it, so the missing cleanup is specific to this third exit path. -/
theorem detect_metadata_failure_leaks_upload :
    (detectHandler ⟨true, none, some []⟩ defaultUrlOf
        ⟨some ⟨"uploads/abc123", "image/jpeg"⟩, []⟩).sourceFileDeleted = false ∧
    (detectHandler ⟨true, none, some []⟩ defaultUrlOf
        ⟨some ⟨"uploads/abc123", "image/jpeg"⟩, []⟩).response.status = 500 ∧
    (detectHandler ⟨true, some ⟨1000, 800, "jpeg"⟩, none⟩ defaultUrlOf
        ⟨some ⟨"uploads/abc123", "image/jpeg"⟩, []⟩).sourceFileDeleted = true ∧
    (detectHandler ⟨true, some ⟨1000, 800, "jpeg"⟩, some []⟩ defaultUrlOf
        ⟨some ⟨"uploads/abc123", "image/jpeg"⟩, []⟩).sourceFileDeleted = true :=
  ⟨rfl, rfl, rfl, rfl⟩

/-- C4 counterexample: an upload whose MIME type `image/gif` is not
among the supported formats advertised by `GET /api/config`, but whose
bytes sharp can parse, sails straight through the handler: the external
Rekognition dependency is called and the request even succeeds — no
validation error response is ever produced by the server. -/
theorem detect_no_mime_validation_cex :
    "image/gif" ∉ supported_formats ∧
    (detectHandler ⟨true, some ⟨10, 10, "gif"⟩, some []⟩ defaultUrlOf
        ⟨some ⟨"uploads/x", "image/gif"⟩, []⟩).rekognitionCalled = true ∧
    (detectHandler ⟨true, some ⟨10, 10, "gif"⟩, some []⟩ defaultUrlOf
        ⟨some ⟨"uploads/x", "image/gif"⟩, []⟩).response.success = true :=
  ⟨by decide, rfl, rfl⟩

/-- C4 (amended): MIME-type validation exists only client-side.  The
server's detect handler never inspects the uploaded file's MIME type —
its outcome is identical for any two MIME types — while the browser-side
`validateImageFile` rejects every file whose type is outside the
supported list with the specific message, before any request is sent. -/
theorem mime_validation_client_only :
    (∀ (env : DetectEnv) (urlOf : Person → String) (path t1 t2 : String)
        (body : List (String × String)),
      detectHandler env urlOf ⟨some ⟨path, t1⟩, body⟩ =
        detectHandler env urlOf ⟨some ⟨path, t2⟩, body⟩) ∧
    (∀ f : ClientFile, f.type ∉ supported_formats →
      validateImageFile f =
        ⟨false, some "Invalid file type. Please upload a JPEG or PNG image."⟩) := by
  constructor
  · intro env urlOf path t1 t2 body
    rfl
  · intro f hf
    have hf' : f.type ∉ (["image/jpeg", "image/jpg", "image/png"] : List String) := hf
    simp only [validateImageFile]
    rw [if_pos hf']

/-- C4 witness: a GIF upload is rejected by the client-side validator. -/
theorem mime_validation_client_only_witness :
    validateImageFile ⟨"image/gif", 1000⟩ =
      ⟨false, some "Invalid file type. Please upload a JPEG or PNG image."⟩ :=
  mime_validation_client_only.2 ⟨"image/gif", 1000⟩ (by decide)

end PPE
